import Mathlib

/-!
Shallow embedding of the clicker-game session/attempt engine:

* reward-table resolution: calculateSmiles from src/utils/gameUtils.ts and the
  SQL helper calculate_smiles_from_ranges from supabase_setup.md (Script 3);
* the server-side stored procedure record_attempt from supabase_setup.md
  (Script 5), which is the authority for the session state machine;
* the administrative reset resetUserAttempts from src/hooks/useSupabase.ts;
* cooldown message formatting formatRemainingCooldown from
  src/utils/gameUtils.ts;
* clock sampling calculateDifference (deviation from the whole second);
* the current-session ledger view derivations from src/hooks/useGameSession.ts.

Timestamps are modelled as integer milliseconds since an arbitrary epoch.
-/

/-- One reward band from game_settings.smile_ranges: a JSON object with keys
min, max (null meaning infinity) and smiles. -/
structure SmileRange where
  min : Int
  max : Option Int
  smiles : Int
deriving Repr, DecidableEq

/-- The hardcoded default bands, identical in gameUtils.ts (fallback literal)
and in calculate_smiles_from_ranges (fallback jsonb literal). -/

def defaultRanges : List SmileRange :=
  [⟨0, some 0, 33⟩, ⟨1, some 10, 15⟩, ⟨11, some 50, 10⟩,
   ⟨51, some 100, 5⟩, ⟨101, none, 3⟩]

/-- The band-match test shared by both resolvers:
difference >= range.min && (range.max === null || difference <= range.max). -/

def rangeMatches (difference : Int) (r : SmileRange) : Bool :=
  decide (difference ≥ r.min) &&
    (match r.max with
     | none => true
     | some m => decide (difference ≤ m))

/-- calculateSmiles from src/utils/gameUtils.ts: substitute the default bands
when the argument is null/undefined/empty, stable-sort a copy of the bands by
min ascending (JavaScript sort with comparator a.min - b.min is stable), and
return the smiles of the first matching band, 0 when none matches. -/

def calculateSmiles (difference : Int) (ranges : Option (List SmileRange)) : Int :=
  let effectiveRanges : List SmileRange :=
    match ranges with
    | some rs => if rs.length > 0 then rs else defaultRanges
    | none => defaultRanges
  let sortedRanges := effectiveRanges.mergeSort (fun a b => decide (a.min ≤ b.min))
  match sortedRanges.find? (rangeMatches difference) with
  | some r => r.smiles
  | none => 0

/-- The ordering relation "by min ascending" on bands. -/

def rMin (a b : SmileRange) : Prop := a.min ≤ b.min

instance : DecidableRel rMin := fun a b => inferInstanceAs (Decidable (a.min ≤ b.min))

/-- The Reward Table Resolver as the spec words it (spec section 4.2): written
independently of the source, with insertion sort (the canonical stable sort by
min ascending) in place of the source's mergeSort-on-a-copy. Used only to be
compared against calculateSmiles. -/

def resolveRewardSpec (offset : Int) (bands : Option (List SmileRange)) : Int :=
  let eff : List SmileRange :=
    match bands with
    | some rs => if rs.length > 0 then rs else defaultRanges
    | none => defaultRanges
  match (List.insertionSort rMin eff).find? (rangeMatches offset) with
  | some r => r.smiles
  | none => 0

/-- calculate_smiles_from_ranges from supabase_setup.md Script 3: take the
settings ranges (defaults when NULL or empty), iterate over them IN STORED
ORDER (the SQL loop does not sort), and return the smiles of the first
matching range; 0 when none matches. The settings value is passed in rather
than read from the table. -/

def calculate_smiles_from_ranges
    (smile_ranges : Option (List SmileRange)) (difference_value : Int) : Int :=
  let ranges : List SmileRange :=
    match smile_ranges with
    | none => defaultRanges
    | some rs => if rs.length = 0 then defaultRanges else rs
  match ranges.find? (rangeMatches difference_value) with
  | some r => r.smiles
  | none => 0

/-- calculateDifference from the timer utilities (src/unnamed/part_011, also
inlined in Game.tsx): the deviation of a millisecond-within-second reading
from the whole second. -/

def calculateDifference (ms : Int) : Int :=
  if ms = 0 then 0
  else if ms < 500 then ms
  else 1000 - ms

/-- formatRemainingCooldown from src/utils/gameUtils.ts. Date.now() is passed
explicitly as nowMs. Math.ceil of the exact quotient r/60000 is embedded as
(r + 59999) / 60000, which agrees with the ceiling for the positive r at
which it is used. -/

def formatRemainingCooldown (cooldownEndTimestamp nowMs : Int) : String :=
  let remainingMilliseconds := cooldownEndTimestamp - nowMs
  if remainingMilliseconds ≤ 0 then "available now"
  else
    let remainingMinutes := (remainingMilliseconds + 59999) / 60000
    if remainingMinutes ≤ 1 then "in less than a minute"
    else "in " ++ toString remainingMinutes ++ " minutes"

structure UserRow where
  attempts_left : Int
  best_result : Option Int
  total_smiles : Int
  last_attempt_at : Option Int
deriving Repr, DecidableEq

/-- The singleton row of public.game_settings (id = 1). -/

structure GameSettings where
  attempts_number : Option Int
  smile_ranges : Option (List SmileRange)
  cooldown_minutes : Option Int
deriving Repr, DecidableEq

/-- A row of public.attempts for the player. -/

structure AttemptRow where
  difference : Int
  created_at : Int
deriving Repr, DecidableEq

/-- The per-player slice of the database that record_attempt touches:
the player's users row (none when auth.uid() matches no row), the player's
attempts rows held newest-first (each INSERT prepends; created_at = now()
is nondecreasing across calls), and the settings row. -/

structure DB where
  user : Option UserRow
  attempts : List AttemptRow
  settings : GameSettings
deriving Repr, DecidableEq

/-- Outcomes of record_attempt: RETURN true, RETURN false (user not found),
or one of the two RAISE EXCEPTION branches. -/

inductive RecordResult where
  | success
  | userNotFound
  | cooldownActive
  | noAttemptsLeft
deriving Repr, DecidableEq

/-- Cooldown minutes as record_attempt computes them: settings value, with
60 substituted when the column is NULL or non-positive. -/

def effectiveCooldownMinutes (s : GameSettings) : Int :=
  match s.cooldown_minutes with
  | none => 60
  | some c => if c ≤ 0 then 60 else c

/-- Attempts to reset to, as record_attempt computes them: settings value,
with 10 substituted only when the column is NULL. -/

def effectiveAttemptsNumber (s : GameSettings) : Int :=
  match s.attempts_number with
  | none => 10
  | some a => a

/-- record_attempt from supabase_setup.md Script 5, for the requesting player.
difference_value is the argument; now is current_time_check (now()).
An unhandled RAISE EXCEPTION in a plpgsql function aborts the surrounding
transaction, so the exception outcomes return the database unchanged; the
intermediate reset UPDATE is invisible in the final state because the final
UPDATE overwrites all four gameplay columns. Timestamp comparison
last_attempt_at < now() - cooldown is the strict SQL comparison in ms. -/

def record_attempt (db : DB) (difference_value : Int) (now : Int) :
    RecordResult × DB :=
  match db.user with
  | none => (.userNotFound, db)
  | some u =>
    let afterCooldown : Option (Int × Option Int) :=
      if u.attempts_left ≤ 0 then
        let cooldownMs := effectiveCooldownMinutes db.settings * 60000
        match u.last_attempt_at with
        | some t =>
          if t < now - cooldownMs then
            some (effectiveAttemptsNumber db.settings, none)
          else
            none
        | none => none
      else
        some (u.attempts_left, u.best_result)
    match afterCooldown with
    | none => (.cooldownActive, db)
    | some (attemptsLeft, bestResult) =>
      if attemptsLeft ≤ 0 then (.noAttemptsLeft, db)
      else
        let new_best_result := min (bestResult.getD difference_value) difference_value
        let smiles := calculate_smiles_from_ranges db.settings.smile_ranges new_best_result
        (.success,
          { db with
            user := some { attempts_left := attemptsLeft - 1
                           best_result := some new_best_result
                           total_smiles := smiles
                           last_attempt_at := some now }
            attempts := ⟨difference_value, now⟩ :: db.attempts })

/-- resetUserAttempts from src/hooks/useSupabase.ts: the administrative reset.
Sets attempts_left to the client settings value (?? 10), clears best_result,
total_smiles, last_attempt_at, and deletes the player's attempts rows. -/

def resetUserAttempts (db : DB) : DB :=
  { db with
    user := db.user.map (fun _ =>
      { attempts_left := (db.settings.attempts_number).getD 10
        best_result := none
        total_smiles := 0
        last_attempt_at := none })
    attempts := [] }

inductive Fault where
  | ok
  | failInsert
  | failUpdate
deriving Repr, DecidableEq

/-- record_attempt outcomes with the persistence-error outcome added. -/

inductive TxResult where
  | success
  | userNotFound
  | cooldownActive
  | noAttemptsLeft
  | persistenceError
deriving Repr, DecidableEq

/-- record_attempt with persistence faults injected at the INSERT into
attempts and at the final UPDATE of users. Either fault aborts the
transaction: the call reports persistenceError and the database is rolled
back to its pre-call state. -/

def record_attempt_tx (db : DB) (difference_value : Int) (now : Int)
    (f : Fault) : TxResult × DB :=
  match db.user with
  | none => (.userNotFound, db)
  | some u =>
    let afterCooldown : Option (Int × Option Int) :=
      if u.attempts_left ≤ 0 then
        let cooldownMs := effectiveCooldownMinutes db.settings * 60000
        match u.last_attempt_at with
        | some t =>
          if t < now - cooldownMs then
            some (effectiveAttemptsNumber db.settings, none)
          else
            none
        | none => none
      else
        some (u.attempts_left, u.best_result)
    match afterCooldown with
    | none => (.cooldownActive, db)
    | some (attemptsLeft, bestResult) =>
      if attemptsLeft ≤ 0 then (.noAttemptsLeft, db)
      else
        match f with
        | .failInsert => (.persistenceError, db)
        | .failUpdate => (.persistenceError, db)
        | .ok =>
          let new_best_result := min (bestResult.getD difference_value) difference_value
          let smiles := calculate_smiles_from_ranges db.settings.smile_ranges new_best_result
          (.success,
            { db with
              user := some { attempts_left := attemptsLeft - 1
                             best_result := some new_best_result
                             total_smiles := smiles
                             last_attempt_at := some now }
              attempts := ⟨difference_value, now⟩ :: db.attempts })

/-! ## Interleaved execution of two concurrent record_attempt calls

record_attempt's initial SELECT takes no row lock (no FOR UPDATE) and
PostgreSQL runs it at the default READ COMMITTED isolation, so two concurrent
calls can both run their SELECT before either transaction commits. Each call
is split at that boundary: a read phase capturing the plpgsql variables, and
a write phase that runs the rest of the body against the then-current
database using the captured variables (the final UPDATE sets all four
gameplay columns from those variables, so the second writer overwrites the
first: a lost update). -/

/-- The plpgsql variables captured by record_attempt's initial SELECT. -/

structure Captured where
  attempts_left : Int
  best_result : Option Int
  last_attempt_at : Option Int
deriving Repr, DecidableEq

/-- Read phase: the initial SELECT of record_attempt. -/

def readPhase (db : DB) : Option Captured :=
  db.user.map (fun u => ⟨u.attempts_left, u.best_result, u.last_attempt_at⟩)

/-- Write phase: the remainder of record_attempt's body, decided from the
captured variables and applied to the current database state. -/

def writePhase (db : DB) (c : Option Captured) (difference_value : Int)
    (now : Int) : RecordResult × DB :=
  match c with
  | none => (.userNotFound, db)
  | some cap =>
    let afterCooldown : Option (Int × Option Int) :=
      if cap.attempts_left ≤ 0 then
        let cooldownMs := effectiveCooldownMinutes db.settings * 60000
        match cap.last_attempt_at with
        | some t =>
          if t < now - cooldownMs then
            some (effectiveAttemptsNumber db.settings, none)
          else
            none
        | none => none
      else
        some (cap.attempts_left, cap.best_result)
    match afterCooldown with
    | none => (.cooldownActive, db)
    | some (attemptsLeft, bestResult) =>
      if attemptsLeft ≤ 0 then (.noAttemptsLeft, db)
      else
        let new_best_result := min (bestResult.getD difference_value) difference_value
        let smiles := calculate_smiles_from_ranges db.settings.smile_ranges new_best_result
        (.success,
          { db with
            user := db.user.map (fun _ =>
              { attempts_left := attemptsLeft - 1
                best_result := some new_best_result
                total_smiles := smiles
                last_attempt_at := some now })
            attempts := ⟨difference_value, now⟩ :: db.attempts })

/-- Sanity: a read phase immediately followed by its own write phase on an
unchanged database is exactly the serial record_attempt. -/

def getUserAttempts (db : DB) (limit : Nat) : List AttemptRow :=
  db.attempts.take limit

/-- JavaScript Array.prototype.slice(0, e): a negative end index counts from
the end of the array. -/

def jsSliceFromZero (l : List AttemptRow) (e : Int) : List AttemptRow :=
  if 0 ≤ e then l.take e.toNat else l.take ((l.length : Int) + e).toNat

/-- The attempts view computed by loadInitialData in useGameSession.ts:
attemptsLimit is settings?.attempts_number ?? 10; with attempts left, fetch
the most recent (attemptsLimit - attempts_left) rows when that count is
positive (none otherwise); with no attempts left, fetch attemptsLimit rows. -/

def loadInitialDataAttempts (settingsAttempts : Option Int) (db : DB)
    (u : UserRow) : List AttemptRow :=
  let attemptsLimit := settingsAttempts.getD 10
  if u.attempts_left > 0 then
    let attemptsMadeThisSession := attemptsLimit - u.attempts_left
    if attemptsMadeThisSession > 0 then
      getUserAttempts db attemptsMadeThisSession.toNat
    else
      []
  else
    getUserAttempts db attemptsLimit.toNat

/-- The attempts view set by handleAttemptSubmit in useGameSession.ts after a
successful recordAttempt: fetch attemptsLimit rows; when a new session just
started (previous attempts_left <= 0 and updated attempts_left > 0) keep only
the newest row, else slice(0, attemptsLimit - updated attempts_left). -/

def handleAttemptSubmitView (settingsAttempts : Option Int)
    (previousAttemptsLeft : Int) (db : DB) (u : UserRow) : List AttemptRow :=
  let attemptsLimit := settingsAttempts.getD 10
  let latestUserAttempts := getUserAttempts db attemptsLimit.toNat
  if previousAttemptsLeft ≤ 0 ∧ u.attempts_left > 0 then
    match latestUserAttempts with
    | [] => []
    | x :: _ => [x]
  else
    jsSliceFromZero latestUserAttempts (attemptsLimit - u.attempts_left)

/-! ## Mutable-array model of calculateSmiles

calculateSmiles receives a JavaScript array by reference and sorts a spread
copy of it. To state that the caller's array is left untouched, the arrays
live in an explicit heap of cells; the spread allocates a fresh cell and
Array.prototype.sort mutates the cell it is called on in place. -/

/-- A heap of JavaScript arrays of ranges, addressed by allocation index. -/

abbrev RHeap : Type := List (List SmileRange)

/-- Dereference a cell (out-of-range reads give the empty array). -/

def heapGet (h : RHeap) (i : Nat) : List SmileRange :=
  List.getD h i []

/-- Overwrite a cell in place. -/

def heapSet (h : RHeap) (i : Nat) (v : List SmileRange) : RHeap :=
  List.set h i v

/-- Allocate a fresh cell holding v; returns the new heap and the reference. -/

def heapAlloc (h : RHeap) (v : List SmileRange) : RHeap × Nat :=
  (h ++ [v], h.length)

/-- calculateSmiles acting on the heap: ranges is the caller's array
reference (none embeds null/undefined). The effective array is the caller's
cell when non-empty, else a freshly allocated default literal; the spread
copies the effective cell into a fresh cell; sort mutates only that copy. -/

def calculateSmilesOnHeap (h : RHeap) (difference : Int)
    (ranges : Option Nat) : Int × RHeap :=
  let step1 : RHeap × Nat :=
    match ranges with
    | some i => if 0 < (heapGet h i).length then (h, i) else heapAlloc h defaultRanges
    | none => heapAlloc h defaultRanges
  let h1 := step1.1
  let effRef := step1.2
  let step2 := heapAlloc h1 (heapGet h1 effRef)
  let h2 := step2.1
  let copyRef := step2.2
  let h3 := heapSet h2 copyRef
    ((heapGet h2 copyRef).mergeSort (fun a b => decide (a.min ≤ b.min)))
  let res : Int :=
    match (heapGet h3 copyRef).find? (rangeMatches difference) with
    | some r => r.smiles
    | none => 0
  (res, h3)

def dbBoundary : DB :=
  ⟨some ⟨0, some 7, 15, some 0⟩, [⟨7, 0⟩], ⟨some 10, none, some 60⟩⟩

/-- C1 counterexample: at the exact cooldown boundary (now - last_attempt_at
equals cooldown_minutes) record_attempt rejects with CooldownActive and
mutates nothing; the claim says this boundary case is accepted and resets.
The SQL comparison last_attempt_at < now() - cooldown is strict. -/

def dbStuck : DB := ⟨some ⟨0, none, 0, none⟩, [], ⟨some 10, none, some 60⟩⟩

def dbBands1 : DB :=
  ⟨some ⟨10, none, 0, none⟩, [], ⟨some 10, some [⟨0, none, 10⟩], some 60⟩⟩

/-- The state after the first accepted attempt (offset 5, reward 10), with
the reward band then changed to give 7 smiles to every offset. -/

def dbBands2 : DB :=
  ⟨some ⟨9, some 5, 10, some 1000⟩, [⟨5, 1000⟩],
   ⟨some 10, some [⟨0, none, 7⟩], some 60⟩⟩

/-- C3 counterexample: attempt 1 (offset 5) locks best_result = 5 with
total_smiles = 10 under the bands in effect then; after the bands change, a
later worse attempt (offset 100) leaves best_result = 5 unchanged but
RE-resolves its reward under the new bands, overwriting total_smiles with 7.
The claim says the earlier best's reward is never recomputed under settings
in effect at a later attempt. -/

def dbFresh : DB := ⟨some ⟨10, none, 0, none⟩, [], ⟨some 10, none, some 60⟩⟩

/-- dbFresh after one accepted attempt with offset 5 at time 1000. -/

def dbFreshAfter : DB :=
  ⟨some ⟨9, some 5, 15, some 1000⟩, [⟨5, 1000⟩], ⟨some 10, none, some 60⟩⟩

def dbRace : DB := ⟨some ⟨1, none, 0, none⟩, [], ⟨some 10, none, some 60⟩⟩

/-- First concurrent call: read before any write, then write. -/

def raceStep1 : RecordResult × DB := writePhase dbRace (readPhase dbRace) 5 1000

/-- Second concurrent call: its read also happened on the initial state
(before the first call committed), its write runs after. -/

def raceStep2 : RecordResult × DB :=
  writePhase raceStep1.2 (readPhase dbRace) 7 1001

/-- C2: record_attempt takes no row lock (no FOR UPDATE) and runs at READ
COMMITTED, so the schedule read1-read2-write1-write2 is possible for a
player with attempts_left = 1 — and it accepts BOTH calls, records two
Attempt rows against the single remaining slot, and the second write
overwrites the first's stats (lost update). Executed serially, the second
call is rejected (with CooldownActive: attempts are exhausted and the
cooldown has just started), so only the interleaving double-spends. -/

def dbLedger : DB :=
  ⟨some ⟨1, some 2, 15, some 900⟩, [⟨2, 900⟩, ⟨40, 800⟩, ⟨0, 700⟩],
   ⟨some 3, none, some 60⟩⟩

def heapW : RHeap := [[⟨11, some 50, 10⟩, ⟨0, some 10, 20⟩]]

lemma minLe_trans : ∀ a b c : SmileRange,
    decide (a.min ≤ b.min) → decide (b.min ≤ c.min) → decide (a.min ≤ c.min) := by
  intro a b c hab hbc
  simp only [decide_eq_true_eq] at *
  omega

lemma minLe_total : ∀ a b : SmileRange,
    decide (a.min ≤ b.min) || decide (b.min ≤ a.min) := by
  intro a b
  simp only [Bool.or_eq_true, decide_eq_true_eq]
  omega

lemma orderedInsert_append_of_not (a : SmileRange) (l₁ l₂ : List SmileRange)
    (h : ∀ b ∈ l₁, ¬ rMin a b) :
    List.orderedInsert rMin a (l₁ ++ l₂) = l₁ ++ List.orderedInsert rMin a l₂ := by
  induction l₁ with
  | nil => rfl
  | cons b t ih =>
    have hb : ¬ rMin a b := h b (List.mem_cons_self b t)
    simp only [List.cons_append, List.orderedInsert, if_neg hb, List.append_eq]
    rw [ih (fun c hc => h c (List.mem_cons_of_mem b hc))]

/-- The source's stable mergeSort by min agrees with insertion sort by min:
both are stable sorts of the same total preorder. -/

lemma mergeSort_min_eq_insertionSort (l : List SmileRange) :
    l.mergeSort (fun a b => decide (a.min ≤ b.min)) = List.insertionSort rMin l := by
  induction l with
  | nil => simp
  | cons a t ih =>
    obtain ⟨l₁, l₂, h1, h2, h3⟩ := List.mergeSort_cons minLe_trans minLe_total a t
    have hs := List.sorted_mergeSort minLe_trans minLe_total (a :: t)
    rw [h1] at hs
    have key : List.orderedInsert rMin a l₂ = a :: l₂ := by
      cases l₂ with
      | nil => rfl
      | cons b l₂' =>
        have hpair : List.Pairwise
            (fun x y : SmileRange => decide (x.min ≤ y.min) = true) (a :: b :: l₂') :=
          (List.pairwise_append.mp hs).2.1
        have hab : rMin a b := by
          have := List.rel_of_pairwise_cons hpair (List.mem_cons_self b l₂')
          simpa [rMin] using this
        simp [List.orderedInsert, hab]
    have hins : List.insertionSort rMin (a :: t)
        = List.orderedInsert rMin a (l₁ ++ l₂) := by
      simp only [List.insertionSort]
      rw [← ih, h2]
    have hnot : ∀ b ∈ l₁, ¬ rMin a b := by
      intro b hb hcontra
      have := h3 b hb
      simp only [rMin, Bool.not_eq_true'] at this hcontra
      simp [decide_eq_true_eq] at this
      omega
    rw [h1, hins, orderedInsert_append_of_not a l₁ l₂ hnot, key]

/-- Evaluation form of calculateSmiles via insertion sort, for concrete runs. -/

lemma calculateSmiles_eval (difference : Int) (ranges : Option (List SmileRange)) :
    calculateSmiles difference ranges =
      (match (List.insertionSort rMin
          (match ranges with
           | some rs => if rs.length > 0 then rs else defaultRanges
           | none => defaultRanges)).find? (rangeMatches difference) with
       | some r => r.smiles
       | none => 0) := by
  simp only [calculateSmiles, mergeSort_min_eq_insertionSort]

example : calculateSmiles 0 none = 33 := by rw [calculateSmiles_eval]; decide

example : calculateSmiles 5 none = 15 := by rw [calculateSmiles_eval]; decide

example : calculateSmiles 500 none = 3 := by rw [calculateSmiles_eval]; decide

example : calculateSmiles (-1) (some defaultRanges) = 0 := by
  rw [calculateSmiles_eval]; decide

example : calculateSmiles 5 (some [⟨51, some 100, 5⟩, ⟨0, some 0, 33⟩,
    ⟨101, none, 3⟩, ⟨1, some 10, 15⟩, ⟨11, some 50, 10⟩]) = 15 := by
  rw [calculateSmiles_eval]; decide

example : calculateDifference 500 = 500 := by decide

/-! ## Database state and the record_attempt stored procedure -/

/-- The gameplay columns of a row of public.users. -/

example :
    record_attempt
      ⟨some ⟨10, none, 0, none⟩, [], ⟨some 10, none, some 60⟩⟩ 5 1000 =
      (.success, ⟨some ⟨9, some 5, 15, some 1000⟩, [⟨5, 1000⟩], ⟨some 10, none, some 60⟩⟩) := by
  decide

example :
    record_attempt
      ⟨some ⟨0, some 7, 15, some 0⟩, [⟨7, 0⟩], ⟨some 10, none, some 60⟩⟩ 5 3600000 =
      (.cooldownActive, ⟨some ⟨0, some 7, 15, some 0⟩, [⟨7, 0⟩], ⟨some 10, none, some 60⟩⟩) := by
  decide

example :
    (record_attempt
      ⟨some ⟨0, some 7, 15, some 0⟩, [⟨7, 0⟩], ⟨some 10, none, some 60⟩⟩ 5 3600001).1 =
      .success := by
  decide

/-! ## Persistence-failure model of record_attempt

The function body runs inside one transaction. A failure of the INSERT into
attempts or of the final UPDATE of users raises an error; an unhandled error
aborts the transaction, so every statement already executed in the body is
rolled back and the database is left as it was before the call. -/

/-- A fault oracle for the two persistence writes of the accepting path. -/

lemma writePhase_readPhase (db : DB) (d now : Int) :
    writePhase db (readPhase db) d now = record_attempt db d now := by
  cases hu : db.user with
  | none => simp [writePhase, readPhase, record_attempt, hu]
  | some u => simp [writePhase, readPhase, record_attempt, hu]

/-! ## Current-session ledger view (useGameSession.ts) -/

/-- getUserAttempts from useSupabase.ts: the player's attempts ordered by
created_at descending, limited. The model ledger is held newest-first. -/

lemma heapGet_append_left (h : RHeap) (v : List SmileRange) (j : Nat)
    (hj : j < h.length) : heapGet (h ++ [v]) j = heapGet h j := by
  unfold heapGet
  induction h generalizing j with
  | nil => simp at hj
  | cons a t ih =>
    cases j with
    | zero => rfl
    | succ k =>
      simp only [List.cons_append, List.getD]
      exact ih k (by simpa using Nat.lt_of_succ_lt_succ hj)

lemma heapSet_append_at_length (h : RHeap) (v w : List SmileRange) :
    heapSet (h ++ [v]) h.length w = h ++ [w] := by
  unfold heapSet
  induction h with
  | nil => rfl
  | cons a t ih =>
    simp only [List.cons_append, List.length_cons, List.set, List.append_eq]
    rw [ih]

lemma heapGet_append_at_length (h : RHeap) (v : List SmileRange) :
    heapGet (h ++ [v]) h.length = v := by
  unfold heapGet
  induction h with
  | nil => rfl
  | cons a t ih => simp [ih]

/-! ## Claims -/

/-- C5: the Reward Table Resolver of the source (calculateSmiles) computes
exactly what the spec describes: default bands when the band list is null or
empty, otherwise the reward of the first band matching the offset in the list
sorted by min ascending, and 0 when no band matches. resolveRewardSpec is
the spec's wording (with the canonical stable insertion sort); the source
stable-sorts with mergeSort on a copy, and the two agree on every input. -/

theorem C5_reward_resolver (offset : Int) (bands : Option (List SmileRange)) :
    calculateSmiles offset bands = resolveRewardSpec offset bands := by
  simp only [calculateSmiles, resolveRewardSpec, mergeSort_min_eq_insertionSort]

/-- C7 counterexample: a click at millisecond 500 produces offset 500, which
is outside the claimed codomain [0, 499]. -/

theorem C7_counterexample :
    calculateDifference 500 = 500 ∧ ¬ calculateDifference 500 ≤ 499 := by
  decide

/-- C7 amended: for every millisecond-within-second reading m in [0, 999]
the computed offset (m if m < 500, else 1000 - m) lies in [0, 500], and the
value 500 is attained only at m = 500. -/

theorem C7_clock_sampler_codomain (ms : Int) (h0 : 0 ≤ ms) (h1 : ms ≤ 999) :
    0 ≤ calculateDifference ms ∧ calculateDifference ms ≤ 500 ∧
      (calculateDifference ms = 500 → ms = 500) := by
  unfold calculateDifference
  split
  · omega
  · split <;> omega

theorem C7_witness :
    0 ≤ (737 : Int) ∧ (737 : Int) ≤ 999 ∧
      (0 ≤ calculateDifference 737 ∧ calculateDifference 737 ≤ 500 ∧
        (calculateDifference 737 = 500 → (737 : Int) = 500)) :=
  ⟨by decide, by decide, C7_clock_sampler_codomain 737 (by decide) (by decide)⟩

/-- C8 counterexample: a remaining cooldown of exactly one minute (60000 ms)
is rendered "in less than a minute", not "in 1 minutes" as the claim's
ceiling-of-ties rule would require. -/

theorem C8_counterexample :
    formatRemainingCooldown 60000 0 = "in less than a minute" ∧
      formatRemainingCooldown 60000 0 ≠ "in 1 minutes" := by
  constructor
  · rfl
  · decide

/-- C8 amended: for a strictly positive remaining duration r, a remainder of
at most one minute (including exactly one minute) renders "in less than a
minute"; a remainder above one minute renders "in N minutes" where N is the
ceiling of r in minutes (so N ≥ 2, and a tie at exactly N minutes renders
"in N minutes"). -/

theorem C8_cooldown_message (endT nowMs r : Int) (hr : r = endT - nowMs)
    (hpos : 0 < r) :
    (r ≤ 60000 → formatRemainingCooldown endT nowMs = "in less than a minute") ∧
    (60000 < r → ∃ n : Int,
      formatRemainingCooldown endT nowMs = "in " ++ toString n ++ " minutes" ∧
      2 ≤ n ∧ (n - 1) * 60000 < r ∧ r ≤ n * 60000) := by
  constructor
  · intro hle
    unfold formatRemainingCooldown
    rw [← hr]
    rw [if_neg (by omega)]
    simp only
    rw [if_pos (by omega)]
  · intro hlt
    refine ⟨(r + 59999) / 60000, ?_, by omega, by omega, by omega⟩
    unfold formatRemainingCooldown
    rw [← hr]
    rw [if_neg (by omega)]
    simp only
    rw [if_neg (by omega)]

theorem C8_witness :
    ∃ n : Int,
      formatRemainingCooldown 150000 0 = "in " ++ toString n ++ " minutes" ∧
      2 ≤ n ∧ (n - 1) * 60000 < 150000 ∧ (150000 : Int) ≤ n * 60000 :=
  (C8_cooldown_message 150000 0 150000 rfl (by decide)).2 (by decide)

/-- An exhausted player whose last attempt was exactly one cooldown ago:
attempts_left = 0, last_attempt_at = 0, cooldown_minutes = 60,
queried at now = 3600000 ms. -/

theorem C1_counterexample :
    (3600000 : Int) - 0 ≥ 60 * 60000 ∧
      record_attempt dbBoundary 5 3600000 = (.cooldownActive, dbBoundary) := by
  decide

/-- C1 amended: for a player with attempts_remaining = 0 and a non-null
last_attempt_at, record_attempt rejects with CooldownActive and no mutation
whenever now - last_attempt_at ≤ cooldown (the boundary included), and
accepts with a full session reset whenever now - last_attempt_at is STRICTLY
greater than the cooldown (given a positive configured attempts_number). -/

theorem C1_cooldown_gating (db : DB) (u : UserRow) (t d now : Int)
    (hu : db.user = some u) (h0 : u.attempts_left ≤ 0)
    (ht : u.last_attempt_at = some t)
    (hpos : 0 < effectiveAttemptsNumber db.settings) :
    (now - t ≤ effectiveCooldownMinutes db.settings * 60000 →
      record_attempt db d now = (.cooldownActive, db)) ∧
    (effectiveCooldownMinutes db.settings * 60000 < now - t →
      record_attempt db d now =
        (.success,
          { db with
            user := some { attempts_left := effectiveAttemptsNumber db.settings - 1
                           best_result := some d
                           total_smiles :=
                             calculate_smiles_from_ranges db.settings.smile_ranges d
                           last_attempt_at := some now }
            attempts := ⟨d, now⟩ :: db.attempts })) := by
  constructor
  · intro hle
    have hnot : ¬ t < now - effectiveCooldownMinutes db.settings * 60000 := by omega
    simp [record_attempt, hu, h0, ht, hnot]
  · intro hlt
    have hyes : t < now - effectiveCooldownMinutes db.settings * 60000 := by omega
    have hnpos : ¬ effectiveAttemptsNumber db.settings ≤ 0 := by omega
    simp [record_attempt, hu, h0, ht, hyes, hnpos]

theorem C1_witness :
    record_attempt dbBoundary 5 3600000 = (.cooldownActive, dbBoundary) ∧
      record_attempt dbBoundary 5 3600001 =
        (.success,
          { dbBoundary with
            user := some { attempts_left := 9
                           best_result := some 5
                           total_smiles := 15
                           last_attempt_at := some 3600001 }
            attempts := ⟨5, 3600001⟩ :: dbBoundary.attempts }) :=
  ⟨(C1_cooldown_gating dbBoundary ⟨0, some 7, 15, some 0⟩ 0 5 3600000
      rfl (by decide) rfl (by decide)).1 (by decide),
   (C1_cooldown_gating dbBoundary ⟨0, some 7, 15, some 0⟩ 0 5 3600001
      rfl (by decide) rfl (by decide)).2 (by decide)⟩

/-- C9: with attempts_remaining = 0 and a NULL last_attempt_at,
record_attempt rejects with CooldownActive whatever the current time, with no
mutation — the cooldown-elapsed test requires last_attempt_at IS NOT NULL, so
this state is never reset by record_attempt; the administrative
resetUserAttempts path does restore attempts (settings value, default 10)
and clears the stats and the ledger. -/

theorem C9_null_last_attempt (db : DB) (u : UserRow) (d now : Int)
    (hu : db.user = some u) (h0 : u.attempts_left ≤ 0)
    (hn : u.last_attempt_at = none) :
    record_attempt db d now = (.cooldownActive, db) ∧
      (resetUserAttempts db).user =
        some ⟨(db.settings.attempts_number).getD 10, none, 0, none⟩ ∧
      (resetUserAttempts db).attempts = [] := by
  refine ⟨?_, ?_, rfl⟩
  · simp [record_attempt, hu, h0, hn]
  · simp [resetUserAttempts, hu]

/-- A stuck state: no attempts left but no recorded last attempt time. -/

theorem C9_witness :
    record_attempt dbStuck 3 1000000000000 = (.cooldownActive, dbStuck) ∧
      (resetUserAttempts dbStuck).user = some ⟨10, none, 0, none⟩ ∧
      (resetUserAttempts dbStuck).attempts = [] :=
  C9_null_last_attempt dbStuck ⟨0, none, 0, none⟩ 3 1000000000000
    rfl (by decide) rfl

/-- A fresh player under reward bands giving 10 smiles to every offset. -/

theorem C3_counterexample :
    record_attempt dbBands1 5 1000 =
      (.success, ⟨some ⟨9, some 5, 10, some 1000⟩, [⟨5, 1000⟩],
        ⟨some 10, some [⟨0, none, 10⟩], some 60⟩⟩) ∧
    dbBands2.user = some ⟨9, some 5, 10, some 1000⟩ ∧
    record_attempt dbBands2 100 2000 =
      (.success, ⟨some ⟨8, some 5, 7, some 2000⟩, [⟨100, 2000⟩, ⟨5, 1000⟩],
        ⟨some 10, some [⟨0, none, 7⟩], some 60⟩⟩) := by
  decide

/-- C3 amended: after every accepted record_attempt, total_smiles equals the
resolver's output for the stored best_result under the reward bands in effect
at the time of THAT call — the reward of the session best is re-resolved
under current settings at every accepted attempt (so a band change does
affect an already-recorded best's reward at the next accepted attempt; it
stays fixed only while no further attempt is accepted). -/

theorem C3_best_reward (db : DB) (d now : Int) (r : RecordResult) (db' : DB)
    (h : record_attempt db d now = (r, db')) (hr : r = .success) :
    ∃ u' b, db'.user = some u' ∧ u'.best_result = some b ∧
      u'.total_smiles = calculate_smiles_from_ranges db.settings.smile_ranges b := by
  subst hr
  rcases db with ⟨user?, attempts, settings⟩
  cases user? with
  | none => simp [record_attempt] at h
  | some u =>
    by_cases h0 : u.attempts_left ≤ 0
    · cases hlast : u.last_attempt_at with
      | none => simp [record_attempt, h0, hlast] at h
      | some t =>
        by_cases helapsed : t < now - effectiveCooldownMinutes settings * 60000
        · by_cases hA : effectiveAttemptsNumber settings ≤ 0
          · simp [record_attempt, h0, hlast, helapsed, hA] at h
          · simp [record_attempt, h0, hlast, helapsed, hA] at h
            subst h
            exact ⟨_, _, rfl, rfl, rfl⟩
        · simp [record_attempt, h0, hlast, helapsed] at h
    · simp [record_attempt, h0] at h
      subst h
      exact ⟨_, _, rfl, rfl, rfl⟩

theorem C3_witness :
    ∃ u' b,
      (⟨some ⟨9, some 5, 10, some 1000⟩, [⟨5, 1000⟩],
        ⟨some 10, some [⟨0, none, 10⟩], some 60⟩⟩ : DB).user = some u' ∧
      u'.best_result = some b ∧
      u'.total_smiles = calculate_smiles_from_ranges dbBands1.settings.smile_ranges b :=
  C3_best_reward dbBands1 5 1000 .success
    ⟨some ⟨9, some 5, 10, some 1000⟩, [⟨5, 1000⟩],
      ⟨some 10, some [⟨0, none, 10⟩], some 60⟩⟩ (by decide) rfl

/-- C4: every record_attempt call that does not return success — the
expected rejections and any injected persistence failure of the INSERT or
the final UPDATE — leaves the database exactly as it was; and a success
commits the Attempt row together with the attempts_left decrement (from the
pre-call value, or from the freshly reset value), never one without the
other. -/

theorem C4_atomicity (db : DB) (d now : Int) (f : Fault) (r : TxResult)
    (db' : DB) (h : record_attempt_tx db d now f = (r, db')) :
    (r ≠ .success → db' = db) ∧
    (r = .success →
      db'.attempts = ⟨d, now⟩ :: db.attempts ∧
      db'.settings = db.settings ∧
      ∃ u u', db.user = some u ∧ db'.user = some u' ∧
        ((0 < u.attempts_left ∧ u'.attempts_left = u.attempts_left - 1) ∨
         (u.attempts_left ≤ 0 ∧
            u'.attempts_left = effectiveAttemptsNumber db.settings - 1))) := by
  rcases db with ⟨user?, attempts, settings⟩
  cases user? with
  | none =>
    simp [record_attempt_tx] at h
    obtain ⟨rfl, rfl⟩ := h
    exact ⟨fun _ => rfl, fun hc => nomatch hc⟩
  | some u =>
    by_cases h0 : u.attempts_left ≤ 0
    · cases hlast : u.last_attempt_at with
      | none =>
        simp [record_attempt_tx, h0, hlast] at h
        obtain ⟨rfl, rfl⟩ := h
        exact ⟨fun _ => rfl, fun hc => nomatch hc⟩
      | some t =>
        by_cases helapsed : t < now - effectiveCooldownMinutes settings * 60000
        · by_cases hA : effectiveAttemptsNumber settings ≤ 0
          · simp [record_attempt_tx, h0, hlast, helapsed, hA] at h
            obtain ⟨rfl, rfl⟩ := h
            exact ⟨fun _ => rfl, fun hc => nomatch hc⟩
          · cases f with
            | ok =>
              simp [record_attempt_tx, h0, hlast, helapsed, hA] at h
              obtain ⟨rfl, rfl⟩ := h
              exact ⟨fun hns => absurd rfl hns,
                fun _ => ⟨rfl, rfl, u, _, rfl, rfl, Or.inr ⟨h0, rfl⟩⟩⟩
            | failInsert =>
              simp [record_attempt_tx, h0, hlast, helapsed, hA] at h
              obtain ⟨rfl, rfl⟩ := h
              exact ⟨fun _ => rfl, fun hc => nomatch hc⟩
            | failUpdate =>
              simp [record_attempt_tx, h0, hlast, helapsed, hA] at h
              obtain ⟨rfl, rfl⟩ := h
              exact ⟨fun _ => rfl, fun hc => nomatch hc⟩
        · simp [record_attempt_tx, h0, hlast, helapsed] at h
          obtain ⟨rfl, rfl⟩ := h
          exact ⟨fun _ => rfl, fun hc => nomatch hc⟩
    · cases f with
      | ok =>
        simp [record_attempt_tx, h0] at h
        obtain ⟨rfl, rfl⟩ := h
        exact ⟨fun hns => absurd rfl hns,
          fun _ => ⟨rfl, rfl, u, _, rfl, rfl, Or.inl ⟨by omega, rfl⟩⟩⟩
      | failInsert =>
        simp [record_attempt_tx, h0] at h
        obtain ⟨rfl, rfl⟩ := h
        exact ⟨fun _ => rfl, fun hc => nomatch hc⟩
      | failUpdate =>
        simp [record_attempt_tx, h0] at h
        obtain ⟨rfl, rfl⟩ := h
        exact ⟨fun _ => rfl, fun hc => nomatch hc⟩

/-- A fresh player: full attempts, empty ledger, default-style settings. -/

theorem C4_witness :
    dbFreshAfter.attempts = ⟨5, 1000⟩ :: dbFresh.attempts ∧
    dbFreshAfter.settings = dbFresh.settings ∧
    ∃ u u', dbFresh.user = some u ∧ dbFreshAfter.user = some u' ∧
      ((0 < u.attempts_left ∧ u'.attempts_left = u.attempts_left - 1) ∨
       (u.attempts_left ≤ 0 ∧
          u'.attempts_left = effectiveAttemptsNumber dbFresh.settings - 1)) :=
  (C4_atomicity dbFresh 5 1000 .ok .success dbFreshAfter (by decide)).2 rfl

/-- A player holding exactly one remaining attempt. -/

theorem C2_double_spend :
    raceStep1.1 = .success ∧
    raceStep2.1 = .success ∧
    raceStep2.2.attempts = [⟨7, 1001⟩, ⟨5, 1000⟩] ∧
    raceStep2.2.user = some ⟨0, some 7, 15, some 1001⟩ ∧
    (record_attempt (record_attempt dbRace 5 1000).2 7 1001).1 =
      .cooldownActive := by
  decide

/-- C6: both places that derive the current-session view (initial load and
post-submit refresh) return, newest first, the most recent
(attempts_per_session - attempts_remaining) ledger rows when attempts remain
(none at all when attempts_remaining equals the session size), and the most
recent attempts_per_session rows when attempts_remaining is 0. The ledger
db.attempts is held newest-first. -/

theorem C6_session_view (s : Option Int) (db : DB) (u : UserRow) :
    (0 < u.attempts_left →
      loadInitialDataAttempts s db u =
        db.attempts.take (s.getD 10 - u.attempts_left).toNat) ∧
    (u.attempts_left = 0 →
      loadInitialDataAttempts s db u = db.attempts.take (s.getD 10).toNat) ∧
    (∀ prev : Int, 0 ≤ u.attempts_left → u.attempts_left ≤ s.getD 10 →
      ¬ (prev ≤ 0 ∧ 0 < u.attempts_left) →
      handleAttemptSubmitView s prev db u =
        db.attempts.take (s.getD 10 - u.attempts_left).toNat) ∧
    (∀ prev : Int, prev ≤ 0 → 0 < u.attempts_left →
      u.attempts_left = s.getD 10 - 1 →
      handleAttemptSubmitView s prev db u =
        db.attempts.take (s.getD 10 - u.attempts_left).toNat) := by
  refine ⟨?_, ?_, ?_, ?_⟩
  · intro h
    simp only [loadInitialDataAttempts, getUserAttempts]
    rw [if_pos h]
    by_cases hm : s.getD 10 - u.attempts_left > 0
    · rw [if_pos hm]
    · rw [if_neg hm]
      have hz : (s.getD 10 - u.attempts_left).toNat = 0 := by omega
      rw [hz, List.take_zero]
  · intro h
    simp only [loadInitialDataAttempts, getUserAttempts]
    rw [if_neg (by omega)]
  · intro prev h0 hle hnot
    simp only [handleAttemptSubmitView, getUserAttempts, jsSliceFromZero]
    rw [if_neg hnot, if_pos (by omega), List.take_take,
      Nat.min_eq_left (by omega)]
  · intro prev hp hl heq
    simp only [handleAttemptSubmitView, getUserAttempts]
    rw [if_pos ⟨hp, hl⟩]
    have h1 : (s.getD 10 - u.attempts_left).toNat = 1 := by omega
    rw [h1]
    have hk : ∃ k, (s.getD 10).toNat = k + 1 := ⟨(s.getD 10).toNat - 1, by omega⟩
    obtain ⟨k, hk⟩ := hk
    rw [hk]
    cases db.attempts with
    | nil => simp
    | cons a t => simp

/-- A ledger with three rows, newest first. -/

theorem C6_witness :
    loadInitialDataAttempts (some 3) dbLedger ⟨1, some 2, 15, some 900⟩ =
      [⟨2, 900⟩, ⟨40, 800⟩] ∧
    loadInitialDataAttempts (some 3) dbLedger ⟨0, some 2, 15, some 900⟩ =
      [⟨2, 900⟩, ⟨40, 800⟩, ⟨0, 700⟩] ∧
    handleAttemptSubmitView (some 3) 2 dbLedger ⟨1, some 2, 15, some 900⟩ =
      [⟨2, 900⟩, ⟨40, 800⟩] ∧
    handleAttemptSubmitView (some 3) 0 dbLedger ⟨2, some 2, 15, some 900⟩ =
      [⟨2, 900⟩] := by
  refine ⟨?_, ?_, ?_, ?_⟩
  · rw [(C6_session_view (some 3) dbLedger ⟨1, some 2, 15, some 900⟩).1
      (by decide)]
    decide
  · rw [(C6_session_view (some 3) dbLedger ⟨0, some 2, 15, some 900⟩).2.1
      (by decide)]
    decide
  · rw [(C6_session_view (some 3) dbLedger ⟨1, some 2, 15, some 900⟩).2.2.1
      2 (by decide) (by decide) (by decide)]
    decide
  · rw [(C6_session_view (some 3) dbLedger ⟨2, some 2, 15, some 900⟩).2.2.2
      0 (by decide) (by decide) (by decide)]
    decide

/-- C10: calculateSmiles never mutates the caller's band array: the
defensive sort runs on a spread copy in a fresh cell, so every cell that
existed before the call holds the same array afterwards — while the result
is exactly the pure calculateSmiles of the caller's array. -/

theorem C10_no_mutation (h : RHeap) (difference : Int) (i j : Nat)
    (hj : j < h.length) :
    heapGet ((calculateSmilesOnHeap h difference (some i)).2) j = heapGet h j ∧
    (calculateSmilesOnHeap h difference (some i)).1 =
      calculateSmiles difference (some (heapGet h i)) := by
  by_cases hne : 0 < (heapGet h i).length
  · simp only [calculateSmilesOnHeap, heapAlloc, hne, ite_true, if_pos]
    rw [heapGet_append_at_length, heapSet_append_at_length]
    constructor
    · rw [heapGet_append_left h _ j hj]
    · rw [heapGet_append_at_length]
      simp only [calculateSmiles, hne, ite_true, if_pos]
  · have hcell : heapGet h i = [] := List.length_eq_zero.mp (by omega)
    simp only [calculateSmilesOnHeap, heapAlloc, hne, ite_false, if_neg,
      not_false_iff]
    rw [heapGet_append_at_length, heapSet_append_at_length]
    constructor
    · rw [heapGet_append_left _ _ j (by simp; omega),
        heapGet_append_left h _ j hj]
    · simp only [heapGet_append_at_length]
      rw [hcell]
      simp only [calculateSmiles, List.length_nil, gt_iff_lt,
        Nat.lt_irrefl, ite_false, if_neg, not_false_iff]

/-- A one-cell heap holding an unsorted custom band list. -/

theorem C10_witness :
    heapGet ((calculateSmilesOnHeap heapW 7 (some 0)).2) 0 = heapGet heapW 0 ∧
    (calculateSmilesOnHeap heapW 7 (some 0)).1 =
      calculateSmiles 7 (some (heapGet heapW 0)) :=
  C10_no_mutation heapW 7 0 0 (by decide)

example : formatRemainingCooldown 60000 0 = "in less than a minute" := by decide

example : formatRemainingCooldown 60001 0 = "in 2 minutes" := by rfl

example : formatRemainingCooldown (5 * 60000) 0 = "in 5 minutes" := by rfl

example : formatRemainingCooldown (-3) 0 = "available now" := by rfl
